import Mathlib

/-!
Verification of the brainio catalog-resolution engine (`brainio/lookup.py`)
and of the leveled-coordinate / multi-key grouping engine exercised by
`tests/test_assemblies.py`.  The catalog code is embedded directly from the
source; the array engine (`brainio/assemblies.py`) is not part of the visible
sources, so its operations are modelled from the specification and checked
against the behaviour recorded in the tests.
-/

namespace Lookup

/-- Fuelled keep-first deduplication; the fuel only serves to make the
recursion structural, any fuel at least the list length gives the final
answer. -/
def dedupByF {α β : Type} [DecidableEq β] (key : α → β) : Nat → List α → List α
  | _, [] => []
  | 0, _ :: _ => []
  | fuel + 1, a :: as => a :: dedupByF key fuel (as.filter (fun b => key b != key a))

/-- Keep-first deduplication under a key function: retains the first element
of every key-equivalence class, in order of first occurrence.  This models
the behaviour of pandas `DataFrame.drop_duplicates(subset=cols)`. -/
def dedupBy {α β : Type} [DecidableEq β] (key : α → β) (l : List α) : List α :=
  dedupByF key l.length l

/-- Source constant TYPE_ASSEMBLY. -/
def TYPE_ASSEMBLY : String := "assembly"

/-- Source constant TYPE_STIMULUS_SET. -/
def TYPE_STIMULUS_SET : String := "stimulus_set"

/-- One row of a catalog dataframe.  `cls` models the `class` column; the
`Option` models None / NaN for the nullable columns. -/
structure Record where
  identifier : String
  lookup_type : String
  cls : Option String
  location_type : String
  location : String
  sha1 : String
  stimulus_set_identifier : Option String
  lookup_source : String
deriving DecidableEq, Repr

/-- Every column of a record except `lookup_source`, as one value. -/
structure Core where
  identifier : String
  lookup_type : String
  cls : Option String
  location_type : String
  location : String
  sha1 : String
  stimulus_set_identifier : Option String
deriving DecidableEq, Repr

/-- Project a record onto every column except `lookup_source`; rows with
equal core are the duplicates dropped by the lookup functions (`cols = [n
for n in lookup.columns if n != LOOKUP_SOURCE]`). -/
def coreOf (r : Record) : Core :=
  { identifier := r.identifier
    lookup_type := r.lookup_type
    cls := r.cls
    location_type := r.location_type
    location := r.location
    sha1 := r.sha1
    stimulus_set_identifier := r.stimulus_set_identifier }

/-- String suffix test (`str.endswith(post)`), computed on the character
lists. -/
def strEndsWith (s post : String) : Bool :=
  post.data.isSuffixOf s.data

/-- Predicate `_is_csv_lookup` from the source: stimulus-set row whose
location ends in `.csv` and whose class is present (not None/NaN). -/
def _is_csv_lookup (r : Record) : Bool :=
  r.lookup_type == TYPE_STIMULUS_SET && strEndsWith r.location ".csv" && r.cls != none

/-- Predicate `_is_zip_lookup` from the source: stimulus-set row whose
location ends in `.zip` and whose class is absent (None/NaN). -/
def _is_zip_lookup (r : Record) : Bool :=
  r.lookup_type == TYPE_STIMULUS_SET && strEndsWith r.location ".zip" && r.cls == none

/-- Errors raised by the lookup module.  `assemblyNotFound` and
`stimulusSetNotFound`/`representationNotFound` model the `KeyError`
subclasses (the spec's NotFoundError), `inconsistent` models the
`RuntimeError` (ConsistencyError), `duplicate` the `ValueError` raised by
`append` (DuplicateError), `missingCatalog` the `KeyError` of indexing an
unknown catalog name, and `assertionFailed` a Python `assert`. -/
inductive Err where
  | assemblyNotFound (identifier : String)
  | stimulusSetNotFound (identifier : String)
  | representationNotFound (label : String) (identifier : String)
  | inconsistent (label : Option String) (identifier : String)
  | duplicate (identifier : String)
  | missingCatalog (name : String)
  | assertionFailed (msg : String)
deriving DecidableEq, Repr

/-- Decidable equality of `Except` results, so concrete lookup outcomes can
be checked by evaluation. -/
instance instDecEqExcept {ε α : Type} [DecidableEq ε] [DecidableEq α] :
    DecidableEq (Except ε α) := fun x y =>
  match x, y with
  | .ok a, .ok b =>
    if h : a = b then isTrue (by rw [h]) else isFalse (by intro hx; cases hx; exact h rfl)
  | .error e, .error f =>
    if h : e = f then isTrue (by rw [h]) else isFalse (by intro hx; cases hx; exact h rfl)
  | .ok _, .error _ => isFalse (by intro hx; cases hx)
  | .error _, .ok _ => isFalse (by intro hx; cases hx)

/-- Candidate rows of `lookup_assembly`: rows matching the identifier with
`lookup_type == 'assembly'`. -/
def assembly_candidates (rows : List Record) (identifier : String) : List Record :=
  rows.filter (fun r => r.identifier == identifier && r.lookup_type == TYPE_ASSEMBLY)

/-- Embedding of `lookup_assembly`: filter the merged view by identifier and
kind, raise not-found on zero rows, de-duplicate ignoring `lookup_source`,
raise the consistency error when more than one distinct row remains,
otherwise return the unique row (`de_dupe.squeeze()`). -/
def lookup_assembly (rows : List Record) (identifier : String) : Except Err Record :=
  let lookup := assembly_candidates rows identifier
  if lookup.isEmpty then
    .error (.assemblyNotFound identifier)
  else
    let de_dupe := dedupBy coreOf lookup
    if 1 < de_dupe.length then
      .error (.inconsistent none identifier)
    else
      match de_dupe with
      | [r] => .ok r
      | _ => .error (.assertionFailed "len(de_dupe) == 1")

/-- Candidate rows of `lookup_stimulus_set`. -/
def stimulus_set_candidates (rows : List Record) (identifier : String) : List Record :=
  rows.filter (fun r => r.identifier == identifier && r.lookup_type == TYPE_STIMULUS_SET)

/-- The identifier read off the first row of a candidate set, as
`lookup.iloc[0]['identifier']` does for the error messages. -/
def headIdentifier (lookup : List Record) : String :=
  match lookup.head? with
  | some r => r.identifier
  | none => ""

/-- Embedding of `_lookup_stimulus_set_filtered`: filter the candidate rows
by the representation predicate, drop duplicates ignoring `lookup_source`,
then require exactly one survivor. -/
def _lookup_stimulus_set_filtered (lookup : List Record) (filter_func : Record → Bool)
    (label : String) : Except Err Record :=
  let filtered_rows := dedupBy coreOf (lookup.filter filter_func)
  let identifier := headIdentifier lookup
  if filtered_rows.isEmpty then
    .error (.representationNotFound label identifier)
  else if 1 < filtered_rows.length then
    .error (.inconsistent (some label) identifier)
  else
    match filtered_rows with
    | [r] => .ok r
    | _ => .error (.assertionFailed "len(filtered_rows) == 1")

/-- Embedding of `lookup_stimulus_set`: zero candidate rows is the overall
not-found error; otherwise resolve the CSV representation and then the zip
representation and return the pair. -/
def lookup_stimulus_set (rows : List Record) (identifier : String) :
    Except Err (Record × Record) :=
  let lookup := stimulus_set_candidates rows identifier
  if lookup.isEmpty then
    .error (.stimulusSetNotFound identifier)
  else do
    let csv_lookup ← _lookup_stimulus_set_filtered lookup _is_csv_lookup "CSV"
    let zip_lookup ← _lookup_stimulus_set_filtered lookup _is_zip_lookup "zip"
    return (csv_lookup, zip_lookup)

/-- One named catalog: its name, the path of its backing file, and its rows
(each tagged with `lookup_source` as `load_lookup` does). -/
structure CatalogDB where
  name : String
  path : String
  rows : List Record
deriving DecidableEq, Repr

/-- Cells of one persisted CSV row: column name paired with rendered value.
`to_csv` writes every column of the in-memory dataframe, `lookup_source`
included; None/NaN cells render empty. -/
def recordCells (r : Record) : List (String × String) :=
  [("identifier", r.identifier),
   ("lookup_type", r.lookup_type),
   ("class", r.cls.getD ""),
   ("location_type", r.location_type),
   ("location", r.location),
   ("sha1", r.sha1),
   ("stimulus_set_identifier", r.stimulus_set_identifier.getD ""),
   ("lookup_source", r.lookup_source)]

/-- The column set of the in-memory catalog dataframe, which is what
`catalog.to_csv(catalog_path, index=False)` writes. -/
def catalogColumns : List String :=
  ["identifier", "lookup_type", "class", "location_type", "location", "sha1",
   "stimulus_set_identifier", "lookup_source"]

/-- Contents written for a whole catalog file: one row of cells per record. -/
def persistedFile (rows : List Record) : List (List (String × String)) :=
  rows.map recordCells

/-- In-process state of the lookup module: the loaded `_catalogs` dict (an
association list in dict insertion order), the `_concat_catalogs` cache, and
the persisted catalog files keyed by path. -/
structure LookupState where
  catalogs : List CatalogDB
  concat : Option (List Record)
  files : List (String × List (List (String × String)))
deriving DecidableEq, Repr

/-- The union of all catalogs, in catalog order: `pd.concat(catalogs.values())`. -/
def mergedOf (catalogs : List CatalogDB) : List Record :=
  (catalogs.map (fun c => c.rows)).flatten

/-- Embedding of `data()`: return the cached merged view, or compute, cache
and return it. -/
def data (st : LookupState) : List Record × LookupState :=
  match st.concat with
  | some d => (d, st)
  | none =>
    let d := mergedOf st.catalogs
    (d, { st with concat := some d })

/-- Overwrite (or create) the file at `path`, as `to_csv` does. -/
def setFile (files : List (String × List (List (String × String)))) (path : String)
    (content : List (List (String × String))) :
    List (String × List (List (String × String))) :=
  match files with
  | [] => [(path, content)]
  | (p, c0) :: rest =>
    if p == path then (path, content) :: rest else (p, c0) :: setFile rest path content

/-- Replace the (unique) catalog of the given name, modelling the dict
assignment `_catalogs[catalog_name] = catalog`. -/
def replaceCatalog (catalogs : List CatalogDB) (name : String) (newCat : CatalogDB) :
    List CatalogDB :=
  match catalogs with
  | [] => []
  | c :: cs => if c.name == name then newCat :: cs else c :: replaceCatalog cs name newCat

/-- The candidate record `object_lookup` built by `append`. -/
def newRecord (catalog_name object_identifier : String) (cls : Option String)
    (lookup_type bucket_name sha1 s3_key : String)
    (stimulus_set_identifier : Option String) : Record :=
  { identifier := object_identifier
    lookup_type := lookup_type
    cls := cls
    location_type := "S3"
    location := "https://" ++ bucket_name ++ ".s3.amazonaws.com/" ++ s3_key
    sha1 := sha1
    stimulus_set_identifier := stimulus_set_identifier
    lookup_source := catalog_name }

/-- The duplicate rows `append` inspects: rows of the target catalog only,
matching identifier and kind. -/
def duplicatesIn (c : CatalogDB) (object_identifier lookup_type : String) : List Record :=
  c.rows.filter (fun r => r.identifier == object_identifier && r.lookup_type == lookup_type)

/-- The condition under which `append` tolerates existing duplicate rows:
exactly one existing row, pairing csv-with-class against zip-without-class
with the incoming record. -/
def allowed_second (dups : List Record) (incoming : Record) : Bool :=
  match dups with
  | [d] =>
    d.identifier == incoming.identifier &&
      ((_is_csv_lookup d && _is_zip_lookup incoming) ||
        (_is_zip_lookup d && _is_csv_lookup incoming))
  | _ => false

/-- Commit phase of `append`: extend the catalog, rewrite its backing file in
full, store the new catalog in `_catalogs`, and invalidate the merged-view
cache (`_concat_catalogs = None`). -/
def commitAppend (st : LookupState) (catalog : CatalogDB) (r : Record) :
    LookupState × Option Err :=
  let newCat : CatalogDB := { catalog with rows := catalog.rows ++ [r] }
  ({ catalogs := replaceCatalog st.catalogs catalog.name newCat
     concat := none
     files := setFile st.files catalog.path (persistedFile newCat.rows) }, none)

/-- Embedding of `append`: look up the target catalog, build the candidate
record, check the duplicate rules against the target catalog only, then
commit.  Returns the resulting state together with the raised error, if any;
every rejecting branch returns the state unchanged, mirroring the fact that
the source performs no mutation and no file write before its checks pass. -/
def append (st : LookupState) (catalog_name object_identifier : String)
    (cls : Option String) (lookup_type bucket_name sha1 s3_key : String)
    (stimulus_set_identifier : Option String) : LookupState × Option Err :=
  match st.catalogs.find? (fun c => c.name == catalog_name) with
  | none => (st, some (.missingCatalog catalog_name))
  | some catalog =>
    let object_lookup := newRecord catalog_name object_identifier cls lookup_type
      bucket_name sha1 s3_key stimulus_set_identifier
    if !(lookup_type == TYPE_ASSEMBLY || lookup_type == TYPE_STIMULUS_SET) then
      (st, some (.assertionFailed "lookup_type in [TYPE_ASSEMBLY, TYPE_STIMULUS_SET]"))
    else
      let duplicates := duplicatesIn catalog object_identifier lookup_type
      if 0 < duplicates.length then
        if lookup_type == TYPE_ASSEMBLY then
          (st, some (.duplicate object_identifier))
        else if allowed_second duplicates object_lookup then
          commitAppend st catalog object_lookup
        else
          (st, some (.duplicate object_identifier))
      else
        commitAppend st catalog object_lookup

end Lookup

namespace Assemblies

/-- A coordinate value: the tests use strings, integers and booleans as
labels along dimensions. -/
inductive CVal where
  | s (v : String)
  | i (v : Int)
  | b (v : Bool)
deriving DecidableEq, Repr

/-- An exact rational value as an unreduced fraction (the idealisation of
the numeric cell values; the test data and its group means are all exact).
Fractions are compared by cross-multiplication, so the representation is
never required to be in lowest terms. -/
structure Q where
  num : Int
  den : Int
deriving DecidableEq, Repr

/-- Value equality of fractions: cross-multiplication. -/
def qeq (a b : Q) : Bool :=
  a.num * b.den == b.num * a.den

/-- A whole number as a fraction. -/
def qi (n : Int) : Q :=
  ⟨n, 1⟩

/-- A half-integer as a fraction (`qh n` is n/2). -/
def qh (n : Int) : Q :=
  ⟨n, 2⟩

/-- Fraction addition. -/
def qadd (a b : Q) : Q :=
  ⟨a.num * b.den + b.num * a.den, a.den * b.den⟩

/-- Sum of a list of fractions. -/
def qsum (xs : List Q) : Q :=
  xs.foldl qadd ⟨0, 1⟩

/-- Divide a fraction by a natural number. -/
def qdivNat (a : Q) (n : Nat) : Q :=
  ⟨a.num, a.den * (n : Int)⟩

/-- Modelled from the spec: a named coordinate of a labelled array.  `dim =
some d` is a 1:1 coordinate along dimension `d` (`values` has one entry per
position of `d`); `dim = none` is a constant coordinate attached to the
whole array with no index values (`values` holds the single value). -/
structure Coord where
  name : String
  dim : Option String
  values : List CVal
deriving DecidableEq, Repr

/-- Modelled from the spec: the labelled multi-dimensional container of
`brainio/assemblies.py` (whose code is not among the visible sources).
`dims` and `shape` describe the dense array, `coords` the declared
coordinates in declaration order, `data` maps a multi-index (one index per
dimension, in `dims` order) to the stored value, and `indexes` records, per
dimension, the ordered level names of the composite index built by
`gather_indexes`. -/
structure Assembly where
  dims : List String
  shape : List Nat
  coords : List Coord
  data : List Nat → Q
  indexes : List (String × List String)

/-- Position of a dimension name in the dims list. -/
def dimIndex (A : Assembly) (d : String) : Nat :=
  A.dims.findIdx (fun x => x == d)

/-- Modelled from the spec: the level names of dimension `d` are the names
of the 1:1 coordinates declared on `d` (other than a coordinate named like
the dimension itself) whose cardinality equals the extent of `d`, in
declaration order. -/
def dimLevels (A : Assembly) (d : String) : List String :=
  (A.coords.filter (fun c =>
    c.dim == some d && c.name != d &&
      c.values.length == A.shape.getD (dimIndex A d) 0)).map (fun c => c.name)

/-- Modelled from the spec: `gather_indexes` detects, for every dimension
carrying several qualifying coordinates, the composite index made of those
coordinates, recording the level names in declaration order.  A dimension
with fewer than two such coordinates gets a plain index and no levels. -/
def gather_indexes (A : Assembly) : Assembly :=
  { A with indexes := A.dims.filterMap (fun d =>
      if 2 ≤ (dimLevels A d).length then some (d, dimLevels A d) else none) }

/-- Modelled from the spec: `get_levels` lists every level name of every
composite (MultiIndex) dimension, in dimension order then declaration
order. -/
def get_levels (A : Assembly) : List String :=
  (A.indexes.map (fun e => e.2)).flatten

/-- The DataAssembly constructor: wrap the raw parts and gather indexes. -/
def DataAssembly (dims : List String) (shape : List Nat) (coords : List Coord)
    (data : List Nat → Q) : Assembly :=
  gather_indexes { dims := dims, shape := shape, coords := coords, data := data, indexes := [] }

/-- All multi-indexes of a given shape, row-major. -/
def positionsOf : List Nat → List (List Nat)
  | [] => [[]]
  | n :: ns => (List.range n).flatMap (fun i => (positionsOf ns).map (fun p => i :: p))

/-- All multi-indexes of an assembly. -/
def allPositions (A : Assembly) : List (List Nat) :=
  positionsOf A.shape

/-- Value of the named coordinate at a position: a constant coordinate reads
its single value, a 1:1 coordinate reads the entry at the position's index
along its dimension. -/
def coordValAt (A : Assembly) (name : String) (p : List Nat) : CVal :=
  match A.coords.find? (fun c => c.name == name) with
  | none => .i 0
  | some c =>
    match c.dim with
    | none => c.values.getD 0 (.i 0)
    | some d => c.values.getD (p.getD (dimIndex A d) 0) (.i 0)

/-- Two positions fall in the same group exactly when every named
coordinate takes the same value at both. -/
def sameKey (A : Assembly) (names : List String) (p q : List Nat) : Bool :=
  names.all (fun n => coordValAt A n p == coordValAt A n q)

/-- The group of a position under a set of grouping names, presented as
labelled cells (position, value). -/
def groupCells (names : List String) (A : Assembly) (p : List Nat) :
    List (List Nat × Q) :=
  ((allPositions A).filter (fun q => sameKey A names p q)).map (fun q => (q, A.data q))

/-- Modelled from the spec: `multi_dim_apply` partitions the positions into
groups agreeing on every named coordinate (names may straddle dimensions'
levels), hands each group to the function as labelled cells, and reassembles
the returned cells by position.  Dimensions, shape and every coordinate —
including constant coordinates not involved in the grouping — are preserved;
a position the function's output does not mention keeps its original
value. -/
def multi_dim_apply (names : List String)
    (func : List (List Nat × Q) → List (List Nat × Q)) (A : Assembly) : Assembly :=
  { A with data := fun p =>
      match (func (groupCells names A p)).find? (fun cell => cell.1 == p) with
      | some cell => cell.2
      | none => A.data p }

/-- Mean of a list of rationals (the reduction used by the groupby tests). -/
def meanQ (xs : List Q) : Q :=
  qdivNat (qsum xs) xs.length

/-- Modelled from the spec: `multi_groupby(names).mean(dim)` for grouping
names that are levels of the single dimension `dim`.  The distinct group
keys, in order of first occurrence, become the positions of the grouped
dimension; each output cell is the mean of its group's cells; each grouped
level becomes a coordinate on the grouped dimension carrying the per-key
values; coordinates of other dimensions survive unchanged; levels of the
grouped dimension that were not grouped on are dropped.  The result is
re-gathered so the grouped levels form the dimension's composite index. -/
def multi_groupby_mean (names : List String) (dim : String) (A : Assembly) : Assembly :=
  let gi := dimIndex A dim
  let n := A.shape.getD gi 0
  let keyAt : Nat → List CVal := fun i =>
    names.map (fun nm =>
      match A.coords.find? (fun c => c.name == nm) with
      | some c => c.values.getD i (.i 0)
      | none => .i 0)
  let keys := Lookup.dedupBy id ((List.range n).map keyAt)
  let members : List CVal → List Nat := fun k =>
    (List.range n).filter (fun i => keyAt i == k)
  gather_indexes
    { dims := A.dims
      shape := A.shape.set gi keys.length
      coords := A.coords.filterMap (fun c =>
        if c.dim == some dim then
          if names.contains c.name then
            some { c with
                    values := keys.map (fun k =>
                      k.getD (names.findIdx (fun nm => nm == c.name)) (.i 0)) }
          else none
        else some c)
      data := fun p =>
        meanQ ((members (keys.getD (p.getD gi 0) [])).map (fun i => A.data (p.set gi i)))
      indexes := [] }

/-- Modelled from the spec: selection by a coordinate or level name.
Restricts the array to the positions whose value on that name equals the
query; an unmatched value yields `none`, modelling the keyed-lookup
NotFoundError, never a silent empty result. -/
def sel (A : Assembly) (name : String) (v : CVal) : Option Assembly :=
  match A.coords.find? (fun c => c.name == name) with
  | none => none
  | some c =>
    match c.dim with
    | none => if c.values.getD 0 (.i 0) == v then some A else none
    | some d =>
      let di := dimIndex A d
      let keep := (List.range (A.shape.getD di 0)).filter
        (fun i => c.values.getD i (.i 0) == v)
      if keep.isEmpty then none
      else
        some (gather_indexes
          { dims := A.dims
            shape := A.shape.set di keep.length
            coords := A.coords.map (fun c2 =>
              if c2.dim == some d then
                { c2 with values := keep.map (fun i => c2.values.getD i (.i 0)) }
              else c2)
            data := fun p => A.data (p.set di (keep.getD (p.getD di 0) 0))
            indexes := [] })

/-- The labelled cells of an assembly: every in-range position paired with
its value. -/
def cellList (A : Assembly) : List (List Nat × Q) :=
  (allPositions A).map (fun p => (p, A.data p))

/-- Cell-by-cell value comparison of two cell lists: same positions in the
same order, with values equal as rationals. -/
def cellsMatch (l1 l2 : List (List Nat × Q)) : Bool :=
  l1.length == l2.length &&
    (l1.zip l2).all (fun c => c.1.1 == c.2.1 && qeq c.1.2 c.2.2)

/-- Structural and value equality of two assemblies, in the sense of
xarray's `DataArray.equals` used by the tests: same dimensions, same shape,
same declared coordinates, and the same value at every position. -/
def equals (A B : Assembly) : Bool :=
  A.dims == B.dims && A.shape == B.shape && A.coords == B.coords &&
    cellsMatch (cellList A) (cellList B)

/-- Build a 2-dimensional data function from rows of rationals. -/
def dataOfRows (rows : List (List Q)) : List Nat → Q :=
  fun p => (rows.getD (p.getD 0 0) []).getD (p.getD 1 0) (qi 0)

/-- The 6×3 array of `test_two_coord` / `test_get_levels`: levels `up` and
`down` on dimension `a`, coordinate `sideways` on dimension `b`. -/
def upDownAssy : Assembly :=
  DataAssembly ["a", "b"] [6, 3]
    [⟨"up", some "a", [.s "alpha", .s "alpha", .s "beta", .s "beta", .s "beta", .s "beta"]⟩,
     ⟨"down", some "a", [.i 1, .i 1, .i 1, .i 1, .i 2, .i 2]⟩,
     ⟨"sideways", some "b", [.s "x", .s "y", .s "z"]⟩]
    (dataOfRows ([[1, 2, 3], [4, 5, 6], [7, 8, 9], [10, 11, 12], [13, 14, 15],
      [16, 17, 18]].map (fun row => row.map qi)))

/-- The grouped result that `test_two_coord` expects from
`multi_groupby(['up','down']).mean(dim='a')`. -/
def upDownGroupedExpected : Assembly :=
  DataAssembly ["a", "b"] [3, 3]
    [⟨"up", some "a", [.s "alpha", .s "beta", .s "beta"]⟩,
     ⟨"down", some "a", [.i 1, .i 1, .i 2]⟩,
     ⟨"sideways", some "b", [.s "x", .s "y", .s "z"]⟩]
    (dataOfRows ([[5, 7, 9], [17, 19, 21], [29, 31, 33]].map (fun row => row.map qh)))

/-- The 4×3 array of `test_unique_values` / `test_nonindex_coord`: unique
dimension coordinates `a` and `b` plus a constant indexless coordinate
`c`. -/
def uniqueValuesAssy : Assembly :=
  DataAssembly ["a", "b"] [4, 3]
    [⟨"a", some "a", [.s "a", .s "b", .s "c", .s "d"]⟩,
     ⟨"b", some "b", [.s "x", .s "y", .s "z"]⟩,
     ⟨"c", none, [.s "remnant"]⟩]
    (dataOfRows ([[1, 2, 3], [4, 5, 6], [7, 8, 9], [10, 11, 12]].map (fun row => row.map qi)))

end Assemblies

namespace Lookup

/-- Fixture: an assembly catalog row. -/
def assemblyRec : Record :=
  { identifier := "iA"
    lookup_type := TYPE_ASSEMBLY
    cls := some "NeuronRecordingAssembly"
    location_type := "S3"
    location := "https://b.s3.amazonaws.com/assy.nc"
    sha1 := "h1"
    stimulus_set_identifier := some "iS"
    lookup_source := "cat1" }

/-- Fixture: the same logical assembly record registered in a second
catalog — every column equal except `lookup_source`. -/
def assemblyRecOtherCatalog : Record :=
  { assemblyRec with lookup_source := "cat2" }

/-- Fixture: a conflicting registration of the same identifier in a second
catalog — the content hash differs. -/
def assemblyRecConflict : Record :=
  { assemblyRec with sha1 := "h2", lookup_source := "cat2" }

/-- Fixture: the table (csv, with class) representation of a stimulus
set. -/
def csvRec : Record :=
  { identifier := "iS"
    lookup_type := TYPE_STIMULUS_SET
    cls := some "StimulusSet"
    location_type := "S3"
    location := "https://b.s3.amazonaws.com/stim.csv"
    sha1 := "hc"
    stimulus_set_identifier := none
    lookup_source := "cat1" }

/-- Fixture: the archive (zip, without class) representation of the same
stimulus set. -/
def zipRec : Record :=
  { identifier := "iS"
    lookup_type := TYPE_STIMULUS_SET
    cls := none
    location_type := "S3"
    location := "https://b.s3.amazonaws.com/stim.zip"
    sha1 := "hz"
    stimulus_set_identifier := none
    lookup_source := "cat1" }

/-- Fixture: a second, distinct csv representation (different hash). -/
def csvRecConflict : Record :=
  { csvRec with sha1 := "hc2", lookup_source := "cat2" }

/-- Fixture: a loaded state with one empty catalog. -/
def stEmpty : LookupState :=
  { catalogs := [{ name := "cat1", path := "p1", rows := [] }]
    concat := none
    files := [] }

/-- Fixture: a loaded state where a second catalog already holds a
conflicting assembly registration for identifier iA. -/
def stConflict : LookupState :=
  { catalogs := [{ name := "cat1", path := "p1", rows := [] },
                 { name := "cat2", path := "p2", rows := [assemblyRecConflict] }]
    concat := none
    files := [] }

/-- Fixture: a loaded state whose catalog already holds the csv half of a
stimulus set. -/
def stCsv : LookupState :=
  { catalogs := [{ name := "cat1", path := "p1", rows := [csvRec] }]
    concat := none
    files := [] }

/-- The fuel of `dedupByF` is irrelevant as soon as it covers the list
length. -/
theorem dedupByF_congr {α β : Type} [DecidableEq β] (key : α → β) :
    ∀ (fuel fuel' : Nat) (l : List α), l.length ≤ fuel → l.length ≤ fuel' →
      dedupByF key fuel l = dedupByF key fuel' l := by
  intro fuel
  induction fuel with
  | zero =>
    intro fuel' l h _
    have : l = [] := List.eq_nil_of_length_eq_zero (Nat.le_zero.mp h)
    subst this
    cases fuel' <;> rfl
  | succ n ih =>
    intro fuel' l h h'
    cases l with
    | nil => cases fuel' <;> rfl
    | cons a as =>
      cases fuel' with
      | zero => exact absurd h' (by simp)
      | succ m =>
        simp only [dedupByF]
        congr 1
        exact ih m (as.filter (fun b => key b != key a))
          (Nat.le_trans (List.length_filter_le _ _) (Nat.le_of_succ_le_succ h))
          (Nat.le_trans (List.length_filter_le _ _) (Nat.le_of_succ_le_succ h'))

/-- Unfolding rule of keep-first deduplication: keep the head, de-duplicate
the tail with the head's key class removed. -/
theorem dedupBy_cons {α β : Type} [DecidableEq β] (key : α → β) (a : α) (as : List α) :
    dedupBy key (a :: as) = a :: dedupBy key (as.filter (fun b => key b != key a)) := by
  show dedupByF key (as.length + 1) (a :: as) = _
  simp only [dedupByF]
  congr 1
  exact dedupByF_congr key as.length _ _ (List.length_filter_le _ _) (Nat.le_refl _)

/-- De-duplicating the empty list gives the empty list. -/
theorem dedupBy_nil {α β : Type} [DecidableEq β] (key : α → β) : dedupBy key [] = [] := rfl

/-- Bounded-length version of the commuting law between keep-first
deduplication and filtering by a predicate that only reads the key. -/
theorem dedupBy_filter_comm_aux {α β : Type} [DecidableEq β] (key : α → β) (p : α → Bool)
    (hresp : ∀ a b, key a = key b → p a = p b) :
    ∀ (n : Nat) (l : List α), l.length ≤ n →
      dedupBy key (l.filter p) = (dedupBy key l).filter p := by
  intro n
  induction n with
  | zero =>
    intro l h
    have : l = [] := List.eq_nil_of_length_eq_zero (Nat.le_zero.mp h)
    subst this
    rfl
  | succ n ih =>
    intro l h
    cases l with
    | nil => rfl
    | cons a as =>
      have has : as.length ≤ n := Nat.le_of_succ_le_succ h
      by_cases hpa : p a = true
      · rw [List.filter_cons, if_pos hpa, dedupBy_cons, dedupBy_cons,
          List.filter_cons, if_pos hpa]
        congr 1
        rw [List.filter_comm]
        exact ih (as.filter (fun b => key b != key a))
          (Nat.le_trans (List.length_filter_le _ _) has)
      · have hpa' : p a = false := Bool.eq_false_iff.mpr hpa
        rw [List.filter_cons, if_neg hpa, dedupBy_cons, List.filter_cons, if_neg hpa]
        have hfix : (as.filter p).filter (fun b => key b != key a) = as.filter p := by
          apply List.filter_eq_self.mpr
          intro b hb
          have hpb : p b = true := List.of_mem_filter hb
          have hk : key b ≠ key a := by
            intro hk
            rw [hresp b a hk, hpa'] at hpb
            cases hpb
          simpa [bne_iff_ne] using hk
        calc dedupBy key (as.filter p)
            = dedupBy key ((as.filter p).filter (fun b => key b != key a)) := by rw [hfix]
          _ = dedupBy key ((as.filter (fun b => key b != key a)).filter p) := by
              rw [List.filter_comm]
          _ = (dedupBy key (as.filter (fun b => key b != key a))).filter p :=
              ih (as.filter (fun b => key b != key a))
                (Nat.le_trans (List.length_filter_le _ _) has)

/-- Keep-first deduplication commutes with filtering by any predicate that
depends only on the deduplication key: filtering the deduped rows equals
deduping the filtered rows. -/
theorem dedupBy_filter_comm {α β : Type} [DecidableEq β] (key : α → β) (p : α → Bool)
    (hresp : ∀ a b, key a = key b → p a = p b) (l : List α) :
    dedupBy key (l.filter p) = (dedupBy key l).filter p :=
  dedupBy_filter_comm_aux key p hresp l.length l (Nat.le_refl _)

/-- The csv predicate only reads columns that are part of the core. -/
theorem _is_csv_lookup_respects_core (a b : Record) (h : coreOf a = coreOf b) :
    _is_csv_lookup a = _is_csv_lookup b := by
  have h1 : a.lookup_type = b.lookup_type := congrArg Core.lookup_type h
  have h2 : a.location = b.location := congrArg Core.location h
  have h3 : a.cls = b.cls := congrArg Core.cls h
  unfold _is_csv_lookup
  rw [h1, h2, h3]

/-- The zip predicate only reads columns that are part of the core. -/
theorem _is_zip_lookup_respects_core (a b : Record) (h : coreOf a = coreOf b) :
    _is_zip_lookup a = _is_zip_lookup b := by
  have h1 : a.lookup_type = b.lookup_type := congrArg Core.lookup_type h
  have h2 : a.location = b.location := congrArg Core.location h
  have h3 : a.cls = b.cls := congrArg Core.cls h
  unfold _is_zip_lookup
  rw [h1, h2, h3]

/-- Every stimulus-set candidate row carries the queried identifier, so the
identifier read off the first candidate row is the queried one. -/
theorem head_identifier (rows : List Record) (identifier : String)
    (hne : stimulus_set_candidates rows identifier ≠ []) :
    headIdentifier (stimulus_set_candidates rows identifier) = identifier := by
  unfold headIdentifier
  cases hh : (stimulus_set_candidates rows identifier).head? with
  | none => exact absurd (List.head?_eq_none_iff.mp hh) hne
  | some r =>
    have hmem : r ∈ stimulus_set_candidates rows identifier := by
      cases hl : stimulus_set_candidates rows identifier with
      | nil => exact absurd hl hne
      | cons x xs =>
        rw [hl] at hh
        simp only [List.head?] at hh
        rw [← Option.some_inj.mp hh]
        exact List.mem_cons_self x xs
    have hmem' : r ∈ rows.filter
        (fun r => r.identifier == identifier && r.lookup_type == TYPE_STIMULUS_SET) := hmem
    have hand := List.of_mem_filter hmem'
    have hid : (r.identifier == identifier) = true := by
      simp only [Bool.and_eq_true] at hand
      exact hand.1
    exact eq_of_beq hid

end Lookup

namespace Assemblies

/-- Pointwise equality of grouping keys is invariant under permuting the
grouping names. -/
theorem sameKey_perm (A : Assembly) {names names' : List String}
    (h : names.Perm names') (p q : List Nat) :
    sameKey A names p q = sameKey A names' p q := by
  unfold sameKey
  have hiff : (names.all (fun n => coordValAt A n p == coordValAt A n q) = true) ↔
      (names'.all (fun n => coordValAt A n p == coordValAt A n q) = true) := by
    simp only [List.all_eq_true]
    constructor
    · intro hall n hn
      exact hall n (h.mem_iff.mpr hn)
    · intro hall n hn
      exact hall n (h.mem_iff.mp hn)
  cases ha : names.all (fun n => coordValAt A n p == coordValAt A n q) <;>
    cases hb : names'.all (fun n => coordValAt A n p == coordValAt A n q) <;>
      simp_all

/-- The groups handed to the applied function are invariant under permuting
the grouping names. -/
theorem groupCells_perm (A : Assembly) {names names' : List String}
    (h : names.Perm names') : groupCells names A = groupCells names' A := by
  funext p
  unfold groupCells
  congr 1
  apply List.filter_congr
  intro q _
  exact sameKey_perm A h p q

/-- Looking up a dimension in the gathered index list returns that
dimension's level list whenever the dimension is present and qualifies. -/
theorem lookup_gathered_levels (f : String → List String) (ds : List String) (d : String)
    (hd : d ∈ ds) (h2 : 2 ≤ (f d).length) :
    (ds.filterMap (fun x => if 2 ≤ (f x).length then some (x, f x) else none)).lookup d =
      some (f d) := by
  induction ds with
  | nil => cases hd
  | cons a as ih =>
    rw [List.filterMap_cons]
    by_cases ha : a = d
    · subst ha
      rw [if_pos h2]
      simp [List.lookup]
    · have hd' : d ∈ as := by
        cases hd with
        | head => exact absurd rfl ha
        | tail _ h => exact h
      have hne : (d == a) = false := by
        simp only [beq_eq_false_iff_ne, ne_eq]
        exact fun h => ha h.symm
      by_cases hc : 2 ≤ (f a).length
      · rw [if_pos hc]
        simp only [List.lookup, hne]
        exact ih hd'
      · rw [if_neg hc]
        exact ih hd'

end Assemblies

/-- C3: on the array with levels up=[alpha,alpha,beta,beta,beta,beta] and
down=[1,1,1,1,2,2] on dimension a, sideways=[x,y,z] on dimension b, and data
rows 1..18, grouping by ['up','down'] and reducing with the mean over
dimension a yields exactly the 3 groups (alpha,1),(beta,1),(beta,2) with
rows [2.5,3.5,4.5], [8.5,9.5,10.5], [14.5,15.5,16.5]; the result still
carries the level names up and down on dimension a and stays selectable by
either level individually. -/
theorem two_coord_groupby_mean :
    Assemblies.equals
        (Assemblies.multi_groupby_mean ["up", "down"] "a" Assemblies.upDownAssy)
        Assemblies.upDownGroupedExpected = true ∧
      Assemblies.get_levels
          (Assemblies.multi_groupby_mean ["up", "down"] "a" Assemblies.upDownAssy) =
        ["up", "down"] ∧
      (Assemblies.sel (Assemblies.multi_groupby_mean ["up", "down"] "a" Assemblies.upDownAssy)
          "up" (.s "alpha")).isSome = true ∧
      (Assemblies.sel (Assemblies.multi_groupby_mean ["up", "down"] "a" Assemblies.upDownAssy)
          "up" (.s "beta")).isSome = true ∧
      (Assemblies.sel (Assemblies.multi_groupby_mean ["up", "down"] "a" Assemblies.upDownAssy)
          "down" (.i 1)).isSome = true ∧
      (Assemblies.sel (Assemblies.multi_groupby_mean ["up", "down"] "a" Assemblies.upDownAssy)
          "down" (.i 2)).isSome = true := by
  decide

/-- C6: on any array whose tuples of values across the given coordinate
names are unique position-by-position, applying the identity function under
a grouping by exactly those names returns the array unchanged — dimensions,
data, and every coordinate, the constant indexless ones included. -/
theorem multi_dim_apply_identity (A : Assemblies.Assembly) (names : List String)
    (hnames : ∀ n ∈ names, ∃ c ∈ A.coords, c.name = n)
    (huniq : ∀ p ∈ Assemblies.allPositions A, ∀ q ∈ Assemblies.allPositions A,
      Assemblies.sameKey A names p q = true → p = q) :
    Assemblies.multi_dim_apply names (fun g => g) A = A := by
  have hdata : (fun p =>
      match (Assemblies.groupCells names A p).find? (fun cell => cell.1 == p) with
      | some cell => cell.2
      | none => A.data p) = A.data := by
    funext p
    cases hfind : (Assemblies.groupCells names A p).find? (fun cell => cell.1 == p) with
    | none => rfl
    | some cell =>
      have hmem : cell ∈ Assemblies.groupCells names A p := List.mem_of_find?_eq_some hfind
      have hpred := List.find?_some hfind
      have hp : cell.1 = p := eq_of_beq (by simpa using hpred)
      obtain ⟨q, _, hcell⟩ :
          ∃ q, (q ∈ (Assemblies.allPositions A).filter
            (fun q => Assemblies.sameKey A names p q)) ∧ (q, A.data q) = cell := by
        simpa [Assemblies.groupCells] using hmem
      have hq1 : cell.1 = q := by rw [← hcell]
      have hq2 : cell.2 = A.data q := by rw [← hcell]
      show cell.2 = A.data p
      rw [hq2, ← hq1, hp]
  show { A with data := _ } = A
  rw [show (fun p =>
      match ((fun g => g) (Assemblies.groupCells names A p)).find? (fun cell => cell.1 == p) with
      | some cell => cell.2
      | none => A.data p) = A.data from hdata]

/-- C7: grouping-and-applying with two name lists that are permutations of
each other yields identical results; the output keeps the input's dimension
order no matter the order the names were given in. -/
theorem multi_dim_apply_perm_names (A : Assemblies.Assembly)
    (func : List (List Nat × Assemblies.Q) → List (List Nat × Assemblies.Q))
    (names names' : List String) (h : names.Perm names') :
    Assemblies.multi_dim_apply names func A = Assemblies.multi_dim_apply names' func A := by
  unfold Assemblies.multi_dim_apply
  rw [Assemblies.groupCells_perm A h]

/-- C8: on any array and dimension carrying at least two qualifying 1:1
coordinates, gathering indexes records exactly those coordinates, in
declaration order, as the dimension's composite-index levels, and gathering
is idempotent: re-gathering changes nothing, so re-querying the levels
returns the same ordered list. -/
theorem gather_indexes_levels (A : Assemblies.Assembly) (d : String) (hd : d ∈ A.dims)
    (h2 : 2 ≤ (Assemblies.dimLevels A d).length) :
    (Assemblies.gather_indexes A).indexes.lookup d = some (Assemblies.dimLevels A d) ∧
      Assemblies.gather_indexes (Assemblies.gather_indexes A) =
        Assemblies.gather_indexes A ∧
      Assemblies.get_levels (Assemblies.gather_indexes (Assemblies.gather_indexes A)) =
        Assemblies.get_levels (Assemblies.gather_indexes A) := by
  refine ⟨?_, rfl, rfl⟩
  exact Assemblies.lookup_gathered_levels (Assemblies.dimLevels A) A.dims d hd h2

/-- Witness for C6: the identity apply over the unique coordinates of the
`test_nonindex_coord` array (constant coordinate `c` included) returns the
array itself. -/
theorem multi_dim_apply_identity_witness :
    Assemblies.multi_dim_apply ["a", "b"] (fun g => g) Assemblies.uniqueValuesAssy =
      Assemblies.uniqueValuesAssy :=
  multi_dim_apply_identity Assemblies.uniqueValuesAssy ["a", "b"] (by decide) (by decide)

/-- Witness for C7: grouping the `test_unique_values` array by
`['b','a']` gives the same result as grouping by `['a','b']`. -/
theorem multi_dim_apply_perm_names_witness :
    Assemblies.multi_dim_apply ["b", "a"] (fun g => g) Assemblies.uniqueValuesAssy =
      Assemblies.multi_dim_apply ["a", "b"] (fun g => g) Assemblies.uniqueValuesAssy :=
  multi_dim_apply_perm_names Assemblies.uniqueValuesAssy (fun g => g) ["b", "a"] ["a", "b"]
    (by decide)

/-- Witness for C8: on the `test_get_levels` array, dimension `a` carries
the two levels up and down; gathering records them as `["up", "down"]` — the
declaration order, not the alphabetical order — and re-gathering changes
nothing. -/
theorem gather_indexes_levels_witness :
    ("a" ∈ Assemblies.upDownAssy.dims ∧
        2 ≤ (Assemblies.dimLevels Assemblies.upDownAssy "a").length ∧
        Assemblies.dimLevels Assemblies.upDownAssy "a" = ["up", "down"]) ∧
      ((Assemblies.gather_indexes Assemblies.upDownAssy).indexes.lookup "a" =
          some (Assemblies.dimLevels Assemblies.upDownAssy "a") ∧
        Assemblies.gather_indexes (Assemblies.gather_indexes Assemblies.upDownAssy) =
          Assemblies.gather_indexes Assemblies.upDownAssy ∧
        Assemblies.get_levels
            (Assemblies.gather_indexes (Assemblies.gather_indexes Assemblies.upDownAssy)) =
          Assemblies.get_levels (Assemblies.gather_indexes Assemblies.upDownAssy)) :=
  ⟨⟨by decide, by decide, by decide⟩,
    gather_indexes_levels Assemblies.upDownAssy "a" (by decide) (by decide)⟩

/-- C1: `lookup_assembly` returns the unique record when, after dropping
duplicate rows that agree on every column except `lookup_source`, exactly
one candidate row across all catalogs remains; it raises the not-found
error when zero rows match the identifier with kind assembly; and it raises
the consistency error when more than one distinct record survives the
dedup. -/
theorem lookup_assembly_resolution (rows : List Lookup.Record) (identifier : String) :
    (Lookup.assembly_candidates rows identifier = [] →
      Lookup.lookup_assembly rows identifier = .error (.assemblyNotFound identifier)) ∧
    (∀ r, Lookup.dedupBy Lookup.coreOf (Lookup.assembly_candidates rows identifier) = [r] →
      Lookup.lookup_assembly rows identifier = .ok r) ∧
    (2 ≤ (Lookup.dedupBy Lookup.coreOf (Lookup.assembly_candidates rows identifier)).length →
      Lookup.lookup_assembly rows identifier =
        .error (.inconsistent none identifier)) := by
  refine ⟨?_, ?_, ?_⟩
  · intro h
    simp [Lookup.lookup_assembly, h]
  · intro r h
    have hne : Lookup.assembly_candidates rows identifier ≠ [] := by
      intro h0
      rw [h0, Lookup.dedupBy_nil] at h
      exact absurd h (by simp)
    simp [Lookup.lookup_assembly, List.isEmpty_iff, hne, h]
  · intro h2
    have hne : Lookup.assembly_candidates rows identifier ≠ [] := by
      intro h0
      rw [h0, Lookup.dedupBy_nil] at h2
      exact absurd h2 (by simp)
    have hlt : 1 < (Lookup.dedupBy Lookup.coreOf
        (Lookup.assembly_candidates rows identifier)).length :=
      Nat.lt_of_lt_of_le Nat.one_lt_two h2
    simp [Lookup.lookup_assembly, List.isEmpty_iff, hne, hlt]

/-- Witness for C1: zero candidates raise the not-found error; the same
logical record registered in two catalogs dedups to one record and
resolves; two records differing in their hash raise the consistency
error. -/
theorem lookup_assembly_resolution_witness :
    (Lookup.assembly_candidates [] "iA" = [] ∧
      Lookup.lookup_assembly [] "iA" = .error (.assemblyNotFound "iA")) ∧
    (Lookup.dedupBy Lookup.coreOf
        (Lookup.assembly_candidates [Lookup.assemblyRec, Lookup.assemblyRecOtherCatalog] "iA") =
        [Lookup.assemblyRec] ∧
      Lookup.lookup_assembly [Lookup.assemblyRec, Lookup.assemblyRecOtherCatalog] "iA" =
        .ok Lookup.assemblyRec) ∧
    (2 ≤ (Lookup.dedupBy Lookup.coreOf
        (Lookup.assembly_candidates [Lookup.assemblyRec, Lookup.assemblyRecConflict] "iA")).length ∧
      Lookup.lookup_assembly [Lookup.assemblyRec, Lookup.assemblyRecConflict] "iA" =
        .error (.inconsistent none "iA")) :=
  ⟨⟨by decide, (lookup_assembly_resolution [] "iA").1 (by decide)⟩,
   ⟨by decide,
    (lookup_assembly_resolution [Lookup.assemblyRec, Lookup.assemblyRecOtherCatalog] "iA").2.1
      Lookup.assemblyRec (by decide)⟩,
   ⟨by decide,
    (lookup_assembly_resolution [Lookup.assemblyRec, Lookup.assemblyRecConflict] "iA").2.2
      (by decide)⟩⟩

/-- Resolution cases of the per-representation helper: zero deduped
survivors give the scoped not-found error, one gives the record, two or
more give the scoped consistency error. -/
theorem stimulus_filtered_cases (lookup : List Lookup.Record)
    (ff : Lookup.Record → Bool) (label : String) :
    (Lookup.dedupBy Lookup.coreOf (lookup.filter ff) = [] →
      Lookup._lookup_stimulus_set_filtered lookup ff label =
        .error (.representationNotFound label (Lookup.headIdentifier lookup))) ∧
    (∀ r, Lookup.dedupBy Lookup.coreOf (lookup.filter ff) = [r] →
      Lookup._lookup_stimulus_set_filtered lookup ff label = .ok r) ∧
    (2 ≤ (Lookup.dedupBy Lookup.coreOf (lookup.filter ff)).length →
      Lookup._lookup_stimulus_set_filtered lookup ff label =
        .error (.inconsistent (some label) (Lookup.headIdentifier lookup))) := by
  refine ⟨?_, ?_, ?_⟩
  · intro h
    simp [Lookup._lookup_stimulus_set_filtered, h]
  · intro r h
    simp [Lookup._lookup_stimulus_set_filtered, h]
  · intro h2
    have hne : Lookup.dedupBy Lookup.coreOf (lookup.filter ff) ≠ [] := by
      intro h0
      rw [h0] at h2
      exact absurd h2 (by simp)
    have hlt : 1 < (Lookup.dedupBy Lookup.coreOf (lookup.filter ff)).length :=
      Nat.lt_of_lt_of_le Nat.one_lt_two h2
    simp [Lookup._lookup_stimulus_set_filtered, List.isEmpty_iff, hne, hlt]

/-- C2: `lookup_stimulus_set` resolves the table and the archive
representation independently by applying each predicate to the deduped
candidate rows: exactly one survivor each returns the pair (table record,
archive record); zero survivors for a predicate raises the not-found error
scoped to that representation; more than one distinct survivor raises the
consistency error scoped to it; zero candidate rows altogether raise the
plain not-found error. -/
theorem lookup_stimulus_set_resolution (rows : List Lookup.Record) (identifier : String) :
    (Lookup.stimulus_set_candidates rows identifier = [] →
      Lookup.lookup_stimulus_set rows identifier =
        .error (.stimulusSetNotFound identifier)) ∧
    (∀ c z,
      (Lookup.dedupBy Lookup.coreOf
        (Lookup.stimulus_set_candidates rows identifier)).filter Lookup._is_csv_lookup = [c] →
      (Lookup.dedupBy Lookup.coreOf
        (Lookup.stimulus_set_candidates rows identifier)).filter Lookup._is_zip_lookup = [z] →
      Lookup.lookup_stimulus_set rows identifier = .ok (c, z)) ∧
    (Lookup.stimulus_set_candidates rows identifier ≠ [] →
      (Lookup.dedupBy Lookup.coreOf
        (Lookup.stimulus_set_candidates rows identifier)).filter Lookup._is_csv_lookup = [] →
      Lookup.lookup_stimulus_set rows identifier =
        .error (.representationNotFound "CSV" identifier)) ∧
    (Lookup.stimulus_set_candidates rows identifier ≠ [] →
      2 ≤ ((Lookup.dedupBy Lookup.coreOf
        (Lookup.stimulus_set_candidates rows identifier)).filter Lookup._is_csv_lookup).length →
      Lookup.lookup_stimulus_set rows identifier =
        .error (.inconsistent (some "CSV") identifier)) ∧
    (∀ c,
      (Lookup.dedupBy Lookup.coreOf
        (Lookup.stimulus_set_candidates rows identifier)).filter Lookup._is_csv_lookup = [c] →
      (Lookup.dedupBy Lookup.coreOf
        (Lookup.stimulus_set_candidates rows identifier)).filter Lookup._is_zip_lookup = [] →
      Lookup.lookup_stimulus_set rows identifier =
        .error (.representationNotFound "zip" identifier)) ∧
    (∀ c,
      (Lookup.dedupBy Lookup.coreOf
        (Lookup.stimulus_set_candidates rows identifier)).filter Lookup._is_csv_lookup = [c] →
      2 ≤ ((Lookup.dedupBy Lookup.coreOf
        (Lookup.stimulus_set_candidates rows identifier)).filter Lookup._is_zip_lookup).length →
      Lookup.lookup_stimulus_set rows identifier =
        .error (.inconsistent (some "zip") identifier)) := by
  have hcsv := Lookup.dedupBy_filter_comm Lookup.coreOf Lookup._is_csv_lookup
    Lookup._is_csv_lookup_respects_core (Lookup.stimulus_set_candidates rows identifier)
  have hzip := Lookup.dedupBy_filter_comm Lookup.coreOf Lookup._is_zip_lookup
    Lookup._is_zip_lookup_respects_core (Lookup.stimulus_set_candidates rows identifier)
  refine ⟨?_, ?_, ?_, ?_, ?_, ?_⟩
  · intro h
    simp [Lookup.lookup_stimulus_set, h]
  · intro c z hc hz
    have hne : Lookup.stimulus_set_candidates rows identifier ≠ [] := by
      intro h0
      rw [h0] at hc
      simp [Lookup.dedupBy_nil] at hc
    have hc' : Lookup.dedupBy Lookup.coreOf
        ((Lookup.stimulus_set_candidates rows identifier).filter Lookup._is_csv_lookup) = [c] := by
      rw [hcsv]; exact hc
    have hz' : Lookup.dedupBy Lookup.coreOf
        ((Lookup.stimulus_set_candidates rows identifier).filter Lookup._is_zip_lookup) = [z] := by
      rw [hzip]; exact hz
    have e1 := (stimulus_filtered_cases (Lookup.stimulus_set_candidates rows identifier)
      Lookup._is_csv_lookup "CSV").2.1 c hc'
    have e2 := (stimulus_filtered_cases (Lookup.stimulus_set_candidates rows identifier)
      Lookup._is_zip_lookup "zip").2.1 z hz'
    simp [Lookup.lookup_stimulus_set, List.isEmpty_iff, hne, e1, e2]
    rfl
  · intro hne hc
    have hc' : Lookup.dedupBy Lookup.coreOf
        ((Lookup.stimulus_set_candidates rows identifier).filter Lookup._is_csv_lookup) = [] := by
      rw [hcsv]; exact hc
    have e1 := (stimulus_filtered_cases (Lookup.stimulus_set_candidates rows identifier)
      Lookup._is_csv_lookup "CSV").1 hc'
    rw [Lookup.head_identifier rows identifier hne] at e1
    simp [Lookup.lookup_stimulus_set, List.isEmpty_iff, hne, e1]
    rfl
  · intro hne hc2
    have hc2' : 2 ≤ (Lookup.dedupBy Lookup.coreOf
        ((Lookup.stimulus_set_candidates rows identifier).filter Lookup._is_csv_lookup)).length := by
      rw [hcsv]; exact hc2
    have e1 := (stimulus_filtered_cases (Lookup.stimulus_set_candidates rows identifier)
      Lookup._is_csv_lookup "CSV").2.2 hc2'
    rw [Lookup.head_identifier rows identifier hne] at e1
    simp [Lookup.lookup_stimulus_set, List.isEmpty_iff, hne, e1]
    rfl
  · intro c hc hz
    have hne : Lookup.stimulus_set_candidates rows identifier ≠ [] := by
      intro h0
      rw [h0] at hc
      simp [Lookup.dedupBy_nil] at hc
    have hc' : Lookup.dedupBy Lookup.coreOf
        ((Lookup.stimulus_set_candidates rows identifier).filter Lookup._is_csv_lookup) = [c] := by
      rw [hcsv]; exact hc
    have hz' : Lookup.dedupBy Lookup.coreOf
        ((Lookup.stimulus_set_candidates rows identifier).filter Lookup._is_zip_lookup) = [] := by
      rw [hzip]; exact hz
    have e1 := (stimulus_filtered_cases (Lookup.stimulus_set_candidates rows identifier)
      Lookup._is_csv_lookup "CSV").2.1 c hc'
    have e2 := (stimulus_filtered_cases (Lookup.stimulus_set_candidates rows identifier)
      Lookup._is_zip_lookup "zip").1 hz'
    rw [Lookup.head_identifier rows identifier hne] at e2
    simp [Lookup.lookup_stimulus_set, List.isEmpty_iff, hne, e1, e2]
    rfl
  · intro c hc hz2
    have hne : Lookup.stimulus_set_candidates rows identifier ≠ [] := by
      intro h0
      rw [h0] at hc
      simp [Lookup.dedupBy_nil] at hc
    have hc' : Lookup.dedupBy Lookup.coreOf
        ((Lookup.stimulus_set_candidates rows identifier).filter Lookup._is_csv_lookup) = [c] := by
      rw [hcsv]; exact hc
    have hz2' : 2 ≤ (Lookup.dedupBy Lookup.coreOf
        ((Lookup.stimulus_set_candidates rows identifier).filter Lookup._is_zip_lookup)).length := by
      rw [hzip]; exact hz2
    have e1 := (stimulus_filtered_cases (Lookup.stimulus_set_candidates rows identifier)
      Lookup._is_csv_lookup "CSV").2.1 c hc'
    have e2 := (stimulus_filtered_cases (Lookup.stimulus_set_candidates rows identifier)
      Lookup._is_zip_lookup "zip").2.2 hz2'
    rw [Lookup.head_identifier rows identifier hne] at e2
    simp [Lookup.lookup_stimulus_set, List.isEmpty_iff, hne, e1, e2]
    rfl

/-- Witness for C2: one table record plus one archive record resolve to the
pair with neither error; zero candidates, a missing representation, or a
duplicated representation each raise the matching error. -/
theorem lookup_stimulus_set_resolution_witness :
    (Lookup.lookup_stimulus_set [Lookup.csvRec, Lookup.zipRec] "iS" =
        .ok (Lookup.csvRec, Lookup.zipRec)) ∧
    (Lookup.lookup_stimulus_set [] "iS" = .error (.stimulusSetNotFound "iS")) ∧
    (Lookup.lookup_stimulus_set [Lookup.zipRec] "iS" =
        .error (.representationNotFound "CSV" "iS")) ∧
    (Lookup.lookup_stimulus_set [Lookup.csvRec] "iS" =
        .error (.representationNotFound "zip" "iS")) ∧
    (Lookup.lookup_stimulus_set [Lookup.csvRec, Lookup.csvRecConflict, Lookup.zipRec] "iS" =
        .error (.inconsistent (some "CSV") "iS")) :=
  ⟨(lookup_stimulus_set_resolution [Lookup.csvRec, Lookup.zipRec] "iS").2.1
      Lookup.csvRec Lookup.zipRec (by decide) (by decide),
   (lookup_stimulus_set_resolution [] "iS").1 (by decide),
   (lookup_stimulus_set_resolution [Lookup.zipRec] "iS").2.2.1 (by decide) (by decide),
   (lookup_stimulus_set_resolution [Lookup.csvRec] "iS").2.2.2.2.1 Lookup.csvRec
      (by decide) (by decide),
   (lookup_stimulus_set_resolution
      [Lookup.csvRec, Lookup.csvRecConflict, Lookup.zipRec] "iS").2.2.2.1
      (by decide) (by decide)⟩

namespace Lookup

/-- The merged view of a cons of catalogs. -/
theorem mergedOf_cons (c : CatalogDB) (cs : List CatalogDB) :
    mergedOf (c :: cs) = c.rows ++ mergedOf cs := by
  simp [mergedOf]

/-- If no row of any catalog satisfies a predicate, filtering the merged
view gives nothing. -/
theorem filter_mergedOf_eq_nil (p : Record → Bool) (cats : List CatalogDB)
    (h : ∀ c ∈ cats, ∀ r ∈ c.rows, p r = false) :
    (mergedOf cats).filter p = [] := by
  apply List.filter_eq_nil_iff.mpr
  intro r hr
  simp only [mergedOf, List.mem_flatten, List.mem_map] at hr
  obtain ⟨l, ⟨c, hcmem, hl⟩, hrl⟩ := hr
  rw [← hl] at hrl
  simp [h c hcmem r hrl]

/-- Filtering the merged view after replacing the matching catalog: when no
pre-existing row satisfies the predicate, only the replacement catalog's
rows can contribute. -/
theorem filter_mergedOf_replaceCatalog (p : Record → Bool) (cats : List CatalogDB)
    (nm : String) (newCat : CatalogDB)
    (hold : ∀ c ∈ cats, ∀ r ∈ c.rows, p r = false)
    (hfound : ∃ c ∈ cats, (c.name == nm) = true) :
    (mergedOf (replaceCatalog cats nm newCat)).filter p = newCat.rows.filter p := by
  induction cats with
  | nil =>
    obtain ⟨c, hcmem, _⟩ := hfound
    cases hcmem
  | cons c0 cs ih =>
    by_cases h0 : (c0.name == nm) = true
    · rw [replaceCatalog]
      rw [if_pos h0, mergedOf_cons, List.filter_append]
      have hrest : (mergedOf cs).filter p = [] :=
        filter_mergedOf_eq_nil p cs (fun c hc => hold c (List.mem_cons_of_mem _ hc))
      rw [hrest, List.append_nil]
    · rw [replaceCatalog]
      rw [if_neg h0, mergedOf_cons, List.filter_append]
      have h1 : c0.rows.filter p = [] := by
        apply List.filter_eq_nil_iff.mpr
        intro r hr
        simp [hold c0 (List.mem_cons_self _ _) r hr]
      have hfound' : ∃ c ∈ cs, (c.name == nm) = true := by
        obtain ⟨c, hcmem, hcnm⟩ := hfound
        cases hcmem with
        | head => exact absurd hcnm h0
        | tail _ hmem => exact ⟨c, hmem, hcnm⟩
      rw [h1,
        ih (fun c hc => hold c (List.mem_cons_of_mem _ hc)) hfound']
      simp

/-- Overwriting a file and reading it back at the same path returns the new
content. -/
theorem lookup_setFile (files : List (String × List (List (String × String))))
    (path : String) (content : List (List (String × String))) :
    (setFile files path content).lookup path = some content := by
  induction files with
  | nil => simp [setFile, List.lookup]
  | cons f rest ih =>
    cases f with
    | mk p c0 =>
      by_cases hp : (p == path) = true
      · rw [setFile]
        rw [if_pos hp]
        simp [List.lookup]
      · rw [setFile]
        rw [if_neg hp]
        have hne : (path == p) = false := by
          have : p ≠ path := by
            intro h
            rw [h] at hp
            simp at hp
          simp only [beq_eq_false_iff_ne, ne_eq]
          exact fun h => this h.symm
        simp only [List.lookup, hne]
        exact ih

/-- A successful `append` is a commit: it necessarily took the branch that
extends the catalog, rewrites the file and invalidates the cache. -/
theorem append_success_commits (st : LookupState) (catalog_name object_identifier : String)
    (cls : Option String) (lookup_type bucket_name sha1 s3_key : String)
    (ssid : Option String) (c : CatalogDB)
    (hc : st.catalogs.find? (fun cat => cat.name == catalog_name) = some c)
    (hsucc : (append st catalog_name object_identifier cls lookup_type bucket_name sha1
      s3_key ssid).2 = none) :
    append st catalog_name object_identifier cls lookup_type bucket_name sha1 s3_key ssid =
      commitAppend st c (newRecord catalog_name object_identifier cls lookup_type
        bucket_name sha1 s3_key ssid) := by
  by_cases hassert : (lookup_type == TYPE_ASSEMBLY || lookup_type == TYPE_STIMULUS_SET) = true
  · by_cases hdup0 : 0 < (duplicatesIn c object_identifier lookup_type).length
    · by_cases hA : (lookup_type == TYPE_ASSEMBLY) = true
      · exfalso
        simp [append, hc, hassert, hdup0, hA] at hsucc
      · rw [Bool.not_eq_true] at hA
        have hS : (lookup_type == TYPE_STIMULUS_SET) = true := by
          have hor := hassert
          rw [Bool.or_eq_true] at hor
          cases hor with
          | inl h => rw [hA] at h; cases h
          | inr h => exact h
        by_cases hall : allowed_second (duplicatesIn c object_identifier lookup_type)
            (newRecord catalog_name object_identifier cls lookup_type bucket_name sha1
              s3_key ssid) = true
        · simp [append, hc, hassert, hdup0, hA, hS, hall]
        · exfalso
          rw [Bool.not_eq_true] at hall
          simp [append, hc, hassert, hdup0, hA, hS, hall] at hsucc
    · simp [append, hc, hassert, hdup0]
  · exfalso
    rw [Bool.not_eq_true] at hassert
    simp [append, hc, hassert] at hsucc

end Lookup

/-- Counterexample for C4 as stated: appending an assembly record to cat1
succeeds even though a record with the same identifier and kind but a
different content hash already sits in cat2, so after the write more than
one distinct record survives the dedup across all catalogs — the write
violated the cross-catalog uniqueness invariant without any DuplicateError.
The duplicate check consults the target catalog only. -/
theorem append_misses_cross_catalog_conflict :
    (Lookup.append Lookup.stConflict "cat1" "iA" (some "NeuronRecordingAssembly")
        Lookup.TYPE_ASSEMBLY "b" "h1" "assy.nc" (some "iS")).2 = none ∧
    2 ≤ (Lookup.dedupBy Lookup.coreOf
        (Lookup.assembly_candidates
          (Lookup.mergedOf
            (Lookup.append Lookup.stConflict "cat1" "iA" (some "NeuronRecordingAssembly")
              Lookup.TYPE_ASSEMBLY "b" "h1" "assy.nc" (some "iS")).1.catalogs)
          "iA")).length := by
  decide

/-- C4 amended: `append` checks duplicates only against the target catalog.
It accepts the record exactly when the target catalog holds no row with the
same identifier and kind, or — for a stimulus set — exactly one such row
pairing table-with-class against archive-without-class with the incoming
record; otherwise it raises the duplicate error.  Rows in other catalogs
are never consulted. -/
theorem append_duplicate_check (st : Lookup.LookupState)
    (catalog_name object_identifier : String) (cls : Option String)
    (lookup_type bucket_name sha1 s3_key : String) (ssid : Option String)
    (c : Lookup.CatalogDB)
    (hc : st.catalogs.find? (fun cat => cat.name == catalog_name) = some c)
    (ht : lookup_type = Lookup.TYPE_ASSEMBLY ∨ lookup_type = Lookup.TYPE_STIMULUS_SET) :
    (Lookup.append st catalog_name object_identifier cls lookup_type bucket_name sha1
        s3_key ssid).2 = none ↔
      (Lookup.duplicatesIn c object_identifier lookup_type = [] ∨
        (lookup_type = Lookup.TYPE_STIMULUS_SET ∧
          Lookup.allowed_second (Lookup.duplicatesIn c object_identifier lookup_type)
            (Lookup.newRecord catalog_name object_identifier cls lookup_type bucket_name
              sha1 s3_key ssid) = true)) := by
  have hSA : (Lookup.TYPE_STIMULUS_SET == Lookup.TYPE_ASSEMBLY) = false := by decide
  have hAneS : Lookup.TYPE_ASSEMBLY ≠ Lookup.TYPE_STIMULUS_SET := by decide
  rcases ht with h | h <;> subst h
  · by_cases hdup : Lookup.duplicatesIn c object_identifier Lookup.TYPE_ASSEMBLY = []
    · simp [Lookup.append, hc, Lookup.commitAppend, hdup, hAneS]
    · have hpos : 0 < (Lookup.duplicatesIn c object_identifier Lookup.TYPE_ASSEMBLY).length :=
        List.length_pos.mpr hdup
      simp [Lookup.append, hc, hdup, hpos, hAneS]
  · by_cases hdup : Lookup.duplicatesIn c object_identifier Lookup.TYPE_STIMULUS_SET = []
    · simp [Lookup.append, hc, Lookup.commitAppend, hdup, hSA]
    · have hpos : 0 < (Lookup.duplicatesIn c object_identifier Lookup.TYPE_STIMULUS_SET).length :=
        List.length_pos.mpr hdup
      by_cases hall : Lookup.allowed_second
          (Lookup.duplicatesIn c object_identifier Lookup.TYPE_STIMULUS_SET)
          (Lookup.newRecord catalog_name object_identifier cls Lookup.TYPE_STIMULUS_SET
            bucket_name sha1 s3_key ssid) = true
      · simp [Lookup.append, hc, Lookup.commitAppend, hdup, hpos, hall, hSA]
      · simp [Lookup.append, hc, hdup, hpos, hall, hSA]

/-- Witness for C4 amended: adding the archive half of a stimulus set whose
table half is already registered in the same catalog is accepted. -/
theorem append_duplicate_check_witness :
    (Lookup.append Lookup.stCsv "cat1" "iS" none Lookup.TYPE_STIMULUS_SET
        "b" "hz" "stim.zip" none).2 = none :=
  (append_duplicate_check Lookup.stCsv "cat1" "iS" none Lookup.TYPE_STIMULUS_SET
      "b" "hz" "stim.zip" none
      { name := "cat1", path := "p1", rows := [Lookup.csvRec] }
      (by decide) (Or.inr rfl)).mpr
    (Or.inr ⟨rfl, by decide⟩)

/-- C10: a rejected `append` — unknown catalog name, failed kind assertion,
or duplicate rejection — leaves the whole lookup state untouched: the
in-memory catalogs, the cached merged view and the persisted files are
exactly those of the pre-call state, because every check precedes every
mutation and file write. -/
theorem append_error_atomic (st : Lookup.LookupState)
    (catalog_name object_identifier : String) (cls : Option String)
    (lookup_type bucket_name sha1 s3_key : String) (ssid : Option String)
    (e : Lookup.Err)
    (h : (Lookup.append st catalog_name object_identifier cls lookup_type bucket_name sha1
      s3_key ssid).2 = some e) :
    (Lookup.append st catalog_name object_identifier cls lookup_type bucket_name sha1
      s3_key ssid).1 = st := by
  cases hfind : st.catalogs.find? (fun cat => cat.name == catalog_name) with
  | none => simp [Lookup.append, hfind]
  | some c =>
    by_cases hassert : (lookup_type == Lookup.TYPE_ASSEMBLY ||
        lookup_type == Lookup.TYPE_STIMULUS_SET) = true
    · by_cases hdup : 0 < (Lookup.duplicatesIn c object_identifier lookup_type).length
      · by_cases hA : (lookup_type == Lookup.TYPE_ASSEMBLY) = true
        · simp [Lookup.append, hfind, hassert, hdup, hA]
        · rw [Bool.not_eq_true] at hA
          have hS : lookup_type = Lookup.TYPE_STIMULUS_SET := by
            have hor := hassert
            rw [Bool.or_eq_true] at hor
            cases hor with
            | inl hx => rw [hA] at hx; cases hx
            | inr hx => exact eq_of_beq hx
          subst hS
          have hne2 : Lookup.TYPE_STIMULUS_SET ≠ Lookup.TYPE_ASSEMBLY := by decide
          by_cases hall : Lookup.allowed_second
              (Lookup.duplicatesIn c object_identifier Lookup.TYPE_STIMULUS_SET)
              (Lookup.newRecord catalog_name object_identifier cls Lookup.TYPE_STIMULUS_SET
                bucket_name sha1 s3_key ssid) = true
          · exfalso
            simp [Lookup.append, hfind, hdup, hne2, hall, Lookup.commitAppend] at h
          · rw [Bool.not_eq_true] at hall
            simp [Lookup.append, hfind, hdup, hne2, hall]
      · exfalso
        simp [Lookup.append, hfind, hassert, hdup, Lookup.commitAppend] at h
    · rw [Bool.not_eq_true] at hassert
      simp [Lookup.append, hfind, hassert]

/-- Witness for C10: appending to an unknown catalog name is rejected and
the state is returned unchanged. -/
theorem append_error_atomic_witness :
    (Lookup.append Lookup.stEmpty "nope" "iA" none Lookup.TYPE_ASSEMBLY
      "b" "h1" "assy.nc" none).1 = Lookup.stEmpty :=
  append_error_atomic Lookup.stEmpty "nope" "iA" none Lookup.TYPE_ASSEMBLY
    "b" "h1" "assy.nc" none (.missingCatalog "nope") (by decide)

/-- Counterexample for C5 as stated: appending the csv half of a stimulus
set succeeds, yet resolving the same identifier and kind immediately
afterwards does not return the just-appended record — it raises the
zip-scoped not-found error because the archive half is missing. -/
theorem append_csv_only_then_resolve_fails :
    (Lookup.append Lookup.stEmpty "cat1" "iS" (some "StimulusSet") Lookup.TYPE_STIMULUS_SET
        "b" "hc" "stim.csv" none).2 = none ∧
    Lookup.lookup_stimulus_set
        (Lookup.data (Lookup.append Lookup.stEmpty "cat1" "iS" (some "StimulusSet")
          Lookup.TYPE_STIMULUS_SET "b" "hc" "stim.csv" none).1).1 "iS" =
      .error (.representationNotFound "zip" "iS") := by
  decide

/-- C5 amended: a successful `append` invalidates the merged-view cache, so
the next read recomputes the union of catalogs including the new row; in
particular, after appending an assembly record whose identifier and kind
occur in no pre-existing row of any catalog, resolving that identifier
returns exactly the just-appended record. -/
theorem append_fresh_assembly_resolves
    (st : Lookup.LookupState) (catalog_name object_identifier : String)
    (cls : Option String) (bucket_name sha1 s3_key : String) (ssid : Option String)
    (hsucc : (Lookup.append st catalog_name object_identifier cls Lookup.TYPE_ASSEMBLY
      bucket_name sha1 s3_key ssid).2 = none)
    (hfresh : ∀ c ∈ st.catalogs, ∀ r ∈ c.rows,
      ¬(r.identifier = object_identifier ∧ r.lookup_type = Lookup.TYPE_ASSEMBLY)) :
    (Lookup.append st catalog_name object_identifier cls Lookup.TYPE_ASSEMBLY bucket_name
      sha1 s3_key ssid).1.concat = none ∧
    Lookup.lookup_assembly
        (Lookup.data (Lookup.append st catalog_name object_identifier cls
          Lookup.TYPE_ASSEMBLY bucket_name sha1 s3_key ssid).1).1 object_identifier =
      .ok (Lookup.newRecord catalog_name object_identifier cls Lookup.TYPE_ASSEMBLY
        bucket_name sha1 s3_key ssid) := by
  cases hfind : st.catalogs.find? (fun cat => cat.name == catalog_name) with
  | none =>
    exfalso
    simp [Lookup.append, hfind] at hsucc
  | some c =>
    have happ := Lookup.append_success_commits st catalog_name object_identifier cls
      Lookup.TYPE_ASSEMBLY bucket_name sha1 s3_key ssid c hfind hsucc
    rw [happ]
    have hmem : c ∈ st.catalogs := List.mem_of_find?_eq_some hfind
    have hold : ∀ c' ∈ st.catalogs, ∀ r ∈ c'.rows,
        (r.identifier == object_identifier && r.lookup_type == Lookup.TYPE_ASSEMBLY) = false := by
      intro c' hc' r hr
      have hn := hfresh c' hc' r hr
      rw [Bool.eq_false_iff]
      intro habs
      simp only [Bool.and_eq_true, beq_iff_eq] at habs
      exact hn habs
    have hfound : ∃ c' ∈ st.catalogs, (c'.name == c.name) = true := ⟨c, hmem, by simp⟩
    have hcand : Lookup.assembly_candidates
        (Lookup.mergedOf (Lookup.replaceCatalog st.catalogs c.name
          { c with rows := c.rows ++ [Lookup.newRecord catalog_name object_identifier cls
            Lookup.TYPE_ASSEMBLY bucket_name sha1 s3_key ssid] }))
        object_identifier =
        [Lookup.newRecord catalog_name object_identifier cls Lookup.TYPE_ASSEMBLY
          bucket_name sha1 s3_key ssid] := by
      show (Lookup.mergedOf _).filter _ = _
      rw [Lookup.filter_mergedOf_replaceCatalog _ _ _ _ hold hfound]
      show (c.rows ++ [_]).filter _ = _
      rw [List.filter_append]
      have h1 : c.rows.filter
          (fun r => r.identifier == object_identifier &&
            r.lookup_type == Lookup.TYPE_ASSEMBLY) = [] := by
        apply List.filter_eq_nil_iff.mpr
        intro r hr
        simp [hold c hmem r hr]
      rw [h1]
      simp [Lookup.newRecord]
    constructor
    · rfl
    · have hdata : (Lookup.data (Lookup.commitAppend st c
          (Lookup.newRecord catalog_name object_identifier cls Lookup.TYPE_ASSEMBLY
            bucket_name sha1 s3_key ssid)).1).1 =
        Lookup.mergedOf (Lookup.replaceCatalog st.catalogs c.name
          { c with rows := c.rows ++ [Lookup.newRecord catalog_name object_identifier cls
            Lookup.TYPE_ASSEMBLY bucket_name sha1 s3_key ssid] }) := rfl
      rw [hdata]
      simp [Lookup.lookup_assembly, hcand, Lookup.dedupBy_cons, Lookup.dedupBy_nil]

/-- Witness for C5 amended: appending a fresh assembly record to an empty
catalog invalidates the cache and the next resolve returns that record. -/
theorem append_fresh_assembly_resolves_witness :
    (Lookup.append Lookup.stEmpty "cat1" "iA" (some "NeuronRecordingAssembly")
        Lookup.TYPE_ASSEMBLY "b" "h1" "assy.nc" (some "iS")).1.concat = none ∧
    Lookup.lookup_assembly
        (Lookup.data (Lookup.append Lookup.stEmpty "cat1" "iA"
          (some "NeuronRecordingAssembly") Lookup.TYPE_ASSEMBLY "b" "h1" "assy.nc"
          (some "iS")).1).1 "iA" =
      .ok (Lookup.newRecord "cat1" "iA" (some "NeuronRecordingAssembly")
        Lookup.TYPE_ASSEMBLY "b" "h1" "assy.nc" (some "iS")) :=
  append_fresh_assembly_resolves Lookup.stEmpty "cat1" "iA"
    (some "NeuronRecordingAssembly") "b" "h1" "assy.nc" (some "iS")
    (by decide) (by decide)

/-- Counterexample for C9 as stated: the one row the rewritten catalog file
holds after an append carries the `lookup_source` column, so the persisted
rows do not omit the column naming the source catalog. -/
theorem persisted_file_keeps_source_column :
    (((Lookup.append Lookup.stEmpty "cat1" "iA" none Lookup.TYPE_ASSEMBLY "b" "h1"
        "assy.nc" none).1.files.lookup "p1").getD []).length = 1 ∧
    (((Lookup.append Lookup.stEmpty "cat1" "iA" none Lookup.TYPE_ASSEMBLY "b" "h1"
        "assy.nc" none).1.files.lookup "p1").getD []).all
        (fun row => (row.map Prod.fst).contains "lookup_source") = true := by
  decide

/-- C9 amended: every successful `append` rewrites the target catalog's
backing file in full — one row per record of the catalog, new record
included — and each persisted row carries every record column, the
`lookup_source` column included. -/
theorem append_rewrites_full_catalog_file (st : Lookup.LookupState)
    (catalog_name object_identifier : String) (cls : Option String)
    (lookup_type bucket_name sha1 s3_key : String) (ssid : Option String)
    (c : Lookup.CatalogDB)
    (hc : st.catalogs.find? (fun cat => cat.name == catalog_name) = some c)
    (hsucc : (Lookup.append st catalog_name object_identifier cls lookup_type bucket_name
      sha1 s3_key ssid).2 = none) :
    (Lookup.append st catalog_name object_identifier cls lookup_type bucket_name sha1
        s3_key ssid).1.files.lookup c.path =
      some (Lookup.persistedFile (c.rows ++ [Lookup.newRecord catalog_name
        object_identifier cls lookup_type bucket_name sha1 s3_key ssid])) ∧
    (∀ row ∈ Lookup.persistedFile (c.rows ++ [Lookup.newRecord catalog_name
        object_identifier cls lookup_type bucket_name sha1 s3_key ssid]),
      row.map Prod.fst = Lookup.catalogColumns) ∧
    "lookup_source" ∈ Lookup.catalogColumns := by
  have happ := Lookup.append_success_commits st catalog_name object_identifier cls
    lookup_type bucket_name sha1 s3_key ssid c hc hsucc
  rw [happ]
  refine ⟨?_, ?_, by decide⟩
  · exact Lookup.lookup_setFile st.files c.path _
  · intro row hrow
    obtain ⟨r, _, hr⟩ := List.mem_map.mp hrow
    rw [← hr]
    rfl

/-- Witness for C9 amended: the concrete append writes the file at p1 with
exactly the catalog's rows and full columns. -/
theorem append_rewrites_full_catalog_file_witness :
    (Lookup.append Lookup.stEmpty "cat1" "iA" none Lookup.TYPE_ASSEMBLY "b" "h1"
        "assy.nc" none).1.files.lookup "p1" =
      some (Lookup.persistedFile ([] ++ [Lookup.newRecord "cat1" "iA" none
        Lookup.TYPE_ASSEMBLY "b" "h1" "assy.nc" none])) ∧
    (∀ row ∈ Lookup.persistedFile ([] ++ [Lookup.newRecord "cat1" "iA" none
        Lookup.TYPE_ASSEMBLY "b" "h1" "assy.nc" none]),
      row.map Prod.fst = Lookup.catalogColumns) ∧
    "lookup_source" ∈ Lookup.catalogColumns :=
  append_rewrites_full_catalog_file Lookup.stEmpty "cat1" "iA" none
    Lookup.TYPE_ASSEMBLY "b" "h1" "assy.nc" none
    { name := "cat1", path := "p1", rows := [] } (by decide) (by decide)
